import Mathlib

/-!
Shallow embedding of the core logic of `detectorteoria.py`
(FactCheck AI Pro v4.0.0): the retry wrapper `com_retry`, the metric
extraction `extrair_metricas`, the score classifier `classificar_score`,
the folder-name sanitizer `sanitizar_nome`, and the evidence/report
formatting helpers, together with theorems about them.

Strings are modelled as `List Char`.  The Python regex character classes
`\d`, `\s`, `\w` and the string operations `strip`, `upper` and `int()`
conversion are modelled over their ASCII ranges; every value produced by
the program's report grammar is ASCII apart from fixed literals, which
are kept verbatim.
-/

/-- `comRetryGo op i fuel` runs attempts `i, i+1, …` of the wrapped
operation with `fuel` attempts remaining, mirroring the loop of
`com_retry`'s `wrapper` in `detectorteoria.py`: return on success,
re-raise on the last failing attempt, otherwise emit one retry notice
and try again.  Attempt `i` of the operation behaves as `op i`
(`Except.error e` models the body raising `e`).  The second component
counts emitted retry notices; a `none` first component is the implicit
`None` Python returns when the loop body never runs. -/
def comRetryGo (op : Nat → Except ε α) : Nat → Nat → Option (Except ε α) × Nat
  | _, 0 => (none, 0)
  | i, fuel + 1 =>
    match op i with
    | Except.ok a => (some (Except.ok a), 0)
    | Except.error e =>
      if fuel = 0 then
        (some (Except.error e), 0)
      else
        ((comRetryGo op (i + 1) fuel).1, (comRetryGo op (i + 1) fuel).2 + 1)

/-- The retry wrapper `com_retry(tentativas, espera)` of `detectorteoria.py`
applied to an operation whose `i`-th attempt behaves as `op i` (the fixed
delay `espera` only feeds `time.sleep` and has no effect on the result). -/
def com_retry (tentativas : Nat) (op : Nat → Except ε α) : Option (Except ε α) × Nat :=
  comRetryGo op 0 tentativas

deriving instance DecidableEq for Except

theorem comRetryGo_succ (op : Nat → Except ε α) (i fuel : Nat) :
    comRetryGo op i (fuel + 1) =
      match op i with
      | Except.ok a => (some (Except.ok a), 0)
      | Except.error e =>
        if fuel = 0 then (some (Except.error e), 0)
        else ((comRetryGo op (i + 1) fuel).1, (comRetryGo op (i + 1) fuel).2 + 1) := rfl

theorem comRetryGo_ok (op : Nat → Except ε α) (err : Nat → ε) (a : α) :
    ∀ M i : Nat, (∀ j, j < M → op (i + j) = Except.error (err (i + j))) →
      op (i + M) = Except.ok a →
      comRetryGo op i (M + 1) = (some (Except.ok a), M) := by
  intro M
  induction M with
  | zero =>
    intro i _ hok
    rw [Nat.add_zero] at hok
    simp [comRetryGo, hok]
  | succ M ih =>
    intro i hfail hok
    have h0 : op i = Except.error (err i) := by
      have := hfail 0 (Nat.succ_pos M)
      rwa [Nat.add_zero] at this
    have hfail' : ∀ j, j < M → op (i + 1 + j) = Except.error (err (i + 1 + j)) := by
      intro j hj
      have heq : i + 1 + j = i + (j + 1) := by omega
      rw [heq]
      exact hfail (j + 1) (by omega)
    have hok' : op (i + 1 + M) = Except.ok a := by
      have heq : i + 1 + M = i + (M + 1) := by omega
      rw [heq]; exact hok
    have hrec := ih (i + 1) hfail' hok'
    rw [comRetryGo_succ, h0]
    simp only [Nat.succ_ne_zero, if_false, hrec]

theorem comRetryGo_err (op : Nat → Except ε α) (err : Nat → ε) :
    ∀ M i : Nat, (∀ j, j ≤ M → op (i + j) = Except.error (err (i + j))) →
      comRetryGo op i (M + 1) = (some (Except.error (err (i + M))), M) := by
  intro M
  induction M with
  | zero =>
    intro i hfail
    have h0 : op i = Except.error (err i) := by
      have := hfail 0 (Nat.le_refl 0)
      rwa [Nat.add_zero] at this
    rw [Nat.add_zero]
    simp [comRetryGo, h0]
  | succ M ih =>
    intro i hfail
    have h0 : op i = Except.error (err i) := by
      have := hfail 0 (Nat.zero_le _)
      rwa [Nat.add_zero] at this
    have hfail' : ∀ j, j ≤ M → op (i + 1 + j) = Except.error (err (i + 1 + j)) := by
      intro j hj
      have heq : i + 1 + j = i + (j + 1) := by omega
      rw [heq]
      exact hfail (j + 1) (by omega)
    have hrec := ih (i + 1) hfail'
    have heq : i + 1 + M = i + (M + 1) := by omega
    rw [heq] at hrec
    rw [comRetryGo_succ, h0]
    simp only [Nat.succ_ne_zero, if_false, hrec]

/-- **C1 (counterexample).** With one configured attempt (`tentativas = 1`,
satisfying "max attempts ≥ 1" with `N = 1`) and an operation that fails
exactly once and then succeeds, `com_retry` propagates the failure with
zero retry notices; it does not return the success value with one notice
as the claim states. -/
theorem com_retry_claim_cex :
    com_retry 1 (fun i => if i = 0 then Except.error 0 else Except.ok 7) =
      ((some (Except.error 0) : Option (Except Nat Nat)), 0) ∧
    ((some (Except.error 0) : Option (Except Nat Nat)), 0) ≠ (some (Except.ok 7), 1) := by
  exact ⟨rfl, by decide⟩

/-- **C1 (amended).** With `N + 1` configured attempts: an operation failing
on its first `N` attempts and then succeeding returns the success value with
exactly `N` retry notices, and an operation failing on all `N + 1` attempts
propagates the final failure unchanged (also with `N` notices), never a
default or degraded value. -/
theorem com_retry_amended (N : Nat) (op : Nat → Except Nat Nat) (err : Nat → Nat) (a : Nat) :
    ((∀ j, j < N → op j = Except.error (err j)) → op N = Except.ok a →
        com_retry (N + 1) op = (some (Except.ok a), N)) ∧
    ((∀ j, j ≤ N → op j = Except.error (err j)) →
        com_retry (N + 1) op = (some (Except.error (err N)), N)) := by
  constructor
  · intro hfail hok
    have hfail' : ∀ j, j < N → op (0 + j) = Except.error (err (0 + j)) := by
      intro j hj; rw [Nat.zero_add]; exact hfail j hj
    have hok' : op (0 + N) = Except.ok a := by rw [Nat.zero_add]; exact hok
    exact comRetryGo_ok op err a N 0 hfail' hok'
  · intro hfail
    have hfail' : ∀ j, j ≤ N → op (0 + j) = Except.error (err (0 + j)) := by
      intro j hj; rw [Nat.zero_add]; exact hfail j hj
    have := comRetryGo_err op err N 0 hfail'
    rwa [Nat.zero_add] at this

/-- Witness for `com_retry_amended` at `N = 2`: an operation failing twice
then returning `42` makes `com_retry 3` return the success with two notices. -/
theorem com_retry_amended_witness :
    com_retry 3 (fun i => if i < 2 then Except.error i else Except.ok 42) =
      ((some (Except.ok 42) : Option (Except Nat Nat)), 2) :=
  (com_retry_amended 2 (fun i => if i < 2 then Except.error i else Except.ok 42)
      (fun i => i) 42).1 (by decide) (by decide)

/-- **C9.** With `tentativas = 0` the loop of `com_retry` never runs: the
wrapper returns Python's implicit `None` with zero retry notices, identically
for every operation (the underlying operation is never consulted), so the
caller receives a default value rather than a distinguishable failure. -/
theorem com_retry_zero_tentativas (ε α : Type) :
    ∀ op op' : Nat → Except ε α,
      com_retry 0 op = (none, 0) ∧ com_retry 0 op = com_retry 0 op' :=
  fun _ _ => ⟨rfl, rfl⟩

/-- The regex class `\s` (over its ASCII range). -/
def isSpaceChar (c : Char) : Bool :=
  c = ' ' || c = '\t' || c = '\n' || c = '\x0d' || c = '\x0b' || c = '\x0c'

/-- The regex class `\d` (over its ASCII range). -/
def isDigitChar (c : Char) : Bool :=
  c.isDigit

/-- The regex class `\w` (over its ASCII range): alphanumeric or underscore. -/
def isWordChar (c : Char) : Bool :=
  c.isAlphanum || c = '_'

/-- Match the literal `lit` at the start of `cs`, returning the remainder. -/
def dropLit : List Char → List Char → Option (List Char)
  | [], cs => some cs
  | _, [] => none
  | p :: ps, c :: cs => if c = p then dropLit ps cs else none

/-- `re.search` position scan: try the matcher `m` at every position of the
text, left to right, returning the first success.  Each matcher below is a
deterministic rendering of its regex, correct because in those patterns no
backtracking alternative can ever succeed where the greedy parse fails. -/
def reSearch (m : List Char → Option (List Char)) : List Char → Option (List Char)
  | [] => m []
  | c :: cs =>
    match m (c :: cs) with
    | some r => some r
    | none => reSearch m cs

/-- `pat` occurs as a contiguous substring of the text. -/
def hasSub (pat : List Char) : List Char → Bool
  | [] => pat.isPrefixOf []
  | c :: cs => pat.isPrefixOf (c :: cs) || hasSub pat cs

/-- The regex `SCORE_DESINFORMACAO:\s*(\d+)` matched at the current position;
returns the captured digit group. -/
def matchScoreAt (cs : List Char) : Option (List Char) :=
  match dropLit "SCORE_DESINFORMACAO:".data cs with
  | none => none
  | some r1 =>
    let ds := (r1.dropWhile isSpaceChar).takeWhile isDigitChar
    if ds = [] then none else some ds

/-- The regex `CONFIANCA_ANALISE:\s*(\w+)` matched at the current position. -/
def matchConfiancaAt (cs : List Char) : Option (List Char) :=
  match dropLit "CONFIANCA_ANALISE:".data cs with
  | none => none
  | some r1 =>
    let ws := (r1.dropWhile isSpaceChar).takeWhile isWordChar
    if ws = [] then none else some ws

/-- The regex `VEREDITO_CODIGO:\s*(\w+)` matched at the current position. -/
def matchVereditoAt (cs : List Char) : Option (List Char) :=
  match dropLit "VEREDITO_CODIGO:".data cs with
  | none => none
  | some r1 =>
    let ws := (r1.dropWhile isSpaceChar).takeWhile isWordChar
    if ws = [] then none else some ws

/-- One `\*?` step: drop a single leading asterisk if present. -/
def dropStar (cs : List Char) : List Char :=
  match cs with
  | [] => []
  | c :: rest => if c = '*' then rest else c :: rest

/-- The numeric tail `(\d+(?:\.\d+)?)/10` of the CONSPIR regex, matched at
the current position (after the separators); returns the captured group. -/
def matchConspirNum (r3 : List Char) : Option (List Char) :=
  if r3.takeWhile isDigitChar = [] then none
  else
    match r3.drop (r3.takeWhile isDigitChar).length with
    | [] => none
    | c2 :: r5 =>
      if c2 = '.' then
        if r5.takeWhile isDigitChar = [] then none
        else if "/10".data.isPrefixOf (r5.drop (r5.takeWhile isDigitChar).length) then
          some (r3.takeWhile isDigitChar ++ '.' :: r5.takeWhile isDigitChar)
        else none
      else if "/10".data.isPrefixOf (c2 :: r5) then some (r3.takeWhile isDigitChar)
      else none

/-- The regex `MÉDIA CONSPIR\s*\|\s*\*?\*?(\d+(?:\.\d+)?)/10` matched at the
current position; returns the captured decimal group. -/
def matchConspirAt (cs : List Char) : Option (List Char) :=
  match dropLit "MÉDIA CONSPIR".data cs with
  | none => none
  | some r1 =>
    match r1.dropWhile isSpaceChar with
    | [] => none
    | c :: r2 =>
      if c = '|' then
        matchConspirNum (dropStar (dropStar (r2.dropWhile isSpaceChar)))
      else none

/-- The record returned by `extrair_metricas`. -/
structure Metricas where
  score : List Char
  confianca : List Char
  veredito : List Char
  conspir_media : List Char
deriving DecidableEq

/-- `extrair_metricas` of `detectorteoria.py`: four independent `re.search`
calls over the report text; a failed search leaves that field at the
`"N/A"` sentinel, and the CONSPIR capture is rendered as `f"{m}/10"`. -/
def extrair_metricas (laudo : List Char) : Metricas where
  score :=
    match reSearch matchScoreAt laudo with
    | some v => v
    | none => "N/A".data
  confianca :=
    match reSearch matchConfiancaAt laudo with
    | some v => v
    | none => "N/A".data
  veredito :=
    match reSearch matchVereditoAt laudo with
    | some v => v
    | none => "N/A".data
  conspir_media :=
    match reSearch matchConspirAt laudo with
    | some v => v ++ "/10".data
    | none => "N/A".data

theorem reSearch_some_imp {P : List Char → Prop} (m : List Char → Option (List Char))
    (hm : ∀ cs v, m cs = some v → P v) :
    ∀ l v, reSearch m l = some v → P v := by
  intro l
  induction l with
  | nil => intro v h; exact hm [] v h
  | cons c cs ih =>
    intro v h
    simp only [reSearch] at h
    cases hm2 : m (c :: cs) with
    | some r =>
      rw [hm2] at h
      injection h with h
      exact h ▸ hm (c :: cs) r hm2
    | none =>
      rw [hm2] at h
      exact ih v h

theorem matchScoreAt_shape (cs v : List Char) (h : matchScoreAt cs = some v) :
    v ≠ [] ∧ ∀ c ∈ v, isDigitChar c := by
  unfold matchScoreAt at h
  cases hd : dropLit "SCORE_DESINFORMACAO:".data cs with
  | none => rw [hd] at h; cases h
  | some r1 =>
    rw [hd] at h
    simp only at h
    by_cases he : (r1.dropWhile isSpaceChar).takeWhile isDigitChar = []
    · rw [if_pos he] at h; cases h
    · rw [if_neg he] at h
      injection h with h
      subst h
      exact ⟨he, fun c hc => List.mem_takeWhile_imp hc⟩

theorem matchConfiancaAt_shape (cs v : List Char) (h : matchConfiancaAt cs = some v) :
    v ≠ [] ∧ ∀ c ∈ v, isWordChar c := by
  unfold matchConfiancaAt at h
  cases hd : dropLit "CONFIANCA_ANALISE:".data cs with
  | none => rw [hd] at h; cases h
  | some r1 =>
    rw [hd] at h
    simp only at h
    by_cases he : (r1.dropWhile isSpaceChar).takeWhile isWordChar = []
    · rw [if_pos he] at h; cases h
    · rw [if_neg he] at h
      injection h with h
      subst h
      exact ⟨he, fun c hc => List.mem_takeWhile_imp hc⟩

theorem matchVereditoAt_shape (cs v : List Char) (h : matchVereditoAt cs = some v) :
    v ≠ [] ∧ ∀ c ∈ v, isWordChar c := by
  unfold matchVereditoAt at h
  cases hd : dropLit "VEREDITO_CODIGO:".data cs with
  | none => rw [hd] at h; cases h
  | some r1 =>
    rw [hd] at h
    simp only at h
    by_cases he : (r1.dropWhile isSpaceChar).takeWhile isWordChar = []
    · rw [if_pos he] at h; cases h
    · rw [if_neg he] at h
      injection h with h
      subst h
      exact ⟨he, fun c hc => List.mem_takeWhile_imp hc⟩

theorem matchConspirNum_ne_nil (r3 v : List Char) (h : matchConspirNum r3 = some v) :
    v ≠ [] := by
  unfold matchConspirNum at h
  repeat' split at h
  all_goals try cases h
  · simp
  · assumption

theorem matchConspirAt_ne_nil (cs v : List Char) (h : matchConspirAt cs = some v) :
    v ≠ [] := by
  unfold matchConspirAt at h
  repeat' split at h
  all_goals try cases h
  exact matchConspirNum_ne_nil _ v h

/-- **C2.** `extrair_metricas` is total and its four fields are extracted
independently: for every input, each field equals the `"N/A"` sentinel
exactly when its own pattern is not found anywhere in the text (a found
pattern always yields a capture distinct from the sentinel); on the empty
string all four fields are `"N/A"`, and a text carrying only the
`CONFIANCA_ANALISE` token still has its confidence extracted while the
other three fields independently resolve to `"N/A"`. -/
theorem extrair_metricas_total :
    (∀ l : List Char,
      ((extrair_metricas l).score = "N/A".data ↔ reSearch matchScoreAt l = none) ∧
      ((extrair_metricas l).confianca = "N/A".data ↔ reSearch matchConfiancaAt l = none) ∧
      ((extrair_metricas l).veredito = "N/A".data ↔ reSearch matchVereditoAt l = none) ∧
      ((extrair_metricas l).conspir_media = "N/A".data ↔ reSearch matchConspirAt l = none)) ∧
    extrair_metricas [] = ⟨"N/A".data, "N/A".data, "N/A".data, "N/A".data⟩ ∧
    extrair_metricas "CONFIANCA_ANALISE: ALTA".data =
      ⟨"N/A".data, "ALTA".data, "N/A".data, "N/A".data⟩ := by
  refine ⟨fun l => ⟨?_, ?_, ?_, ?_⟩, by decide, by decide⟩
  · constructor
    · intro h
      cases hs : reSearch matchScoreAt l with
      | none => rfl
      | some v =>
        exfalso
        have hshape : v ≠ [] ∧ ∀ c ∈ v, isDigitChar c :=
          reSearch_some_imp matchScoreAt matchScoreAt_shape l v hs
        have hv : (extrair_metricas l).score = v := by
          simp only [extrair_metricas, hs]
        rw [h] at hv
        have hN : ('N' : Char) ∈ v := by rw [← hv]; decide
        have := hshape.2 'N' hN
        exact absurd this (by decide)
    · intro h
      simp only [extrair_metricas, h]
  · constructor
    · intro h
      cases hs : reSearch matchConfiancaAt l with
      | none => rfl
      | some v =>
        exfalso
        have hshape : v ≠ [] ∧ ∀ c ∈ v, isWordChar c :=
          reSearch_some_imp matchConfiancaAt matchConfiancaAt_shape l v hs
        have hv : (extrair_metricas l).confianca = v := by
          simp only [extrair_metricas, hs]
        rw [h] at hv
        have hN : ('/' : Char) ∈ v := by rw [← hv]; decide
        have := hshape.2 '/' hN
        exact absurd this (by decide)
    · intro h
      simp only [extrair_metricas, h]
  · constructor
    · intro h
      cases hs : reSearch matchVereditoAt l with
      | none => rfl
      | some v =>
        exfalso
        have hshape : v ≠ [] ∧ ∀ c ∈ v, isWordChar c :=
          reSearch_some_imp matchVereditoAt matchVereditoAt_shape l v hs
        have hv : (extrair_metricas l).veredito = v := by
          simp only [extrair_metricas, hs]
        rw [h] at hv
        have hN : ('/' : Char) ∈ v := by rw [← hv]; decide
        have := hshape.2 '/' hN
        exact absurd this (by decide)
    · intro h
      simp only [extrair_metricas, h]
  · constructor
    · intro h
      cases hs : reSearch matchConspirAt l with
      | none => rfl
      | some v =>
        exfalso
        have hne : v ≠ [] :=
          reSearch_some_imp matchConspirAt matchConspirAt_ne_nil l v hs
        have hv : (extrair_metricas l).conspir_media = v ++ "/10".data := by
          simp only [extrair_metricas, hs]
        rw [h] at hv
        have hlen : ("N/A".data).length = (v ++ "/10".data).length := by rw [hv]
        rw [List.length_append] at hlen
        have h3 : ("N/A".data).length = 3 := by decide
        have h3' : ("/10".data).length = 3 := by decide
        rw [h3, h3'] at hlen
        have : v.length = 0 := by omega
        exact hne (List.length_eq_zero.mp this)
    · intro h
      simp only [extrair_metricas, h]

/-- Python `str.strip()` (over the ASCII whitespace range): remove leading
and trailing whitespace. -/
def pyStrip (l : List Char) : List Char :=
  ((l.dropWhile isSpaceChar).reverse.dropWhile isSpaceChar).reverse

/-- The digit part of a valid `int()` literal after the first digit:
digits, with single underscores allowed between digits (Python 3 numeric
literal grouping). -/
def digitsTail : List Char → Bool
  | [] => true
  | '_' :: rest =>
    match rest with
    | [] => false
    | c :: rest2 => isDigitChar c && digitsTail rest2
  | c :: rest => isDigitChar c && digitsTail rest

/-- A nonempty digit run (with legal underscore grouping), as accepted by
Python `int()` after sign and whitespace handling. -/
def digitsOK : List Char → Bool
  | [] => false
  | c :: rest => isDigitChar c && digitsTail rest

/-- Numeric value of a digit run, ignoring grouping underscores. -/
def digitsVal (l : List Char) : Nat :=
  l.foldl (fun a c => if c = '_' then a else a * 10 + (c.toNat - 48)) 0

/-- Python `int(s)` on a string (ASCII model): strip whitespace, optional
single sign, then a digit run; `none` models the `ValueError` raised on any
other input. -/
def pyIntOfString? (s : List Char) : Option Int :=
  match pyStrip s with
  | '+' :: rest => if digitsOK rest then some ((digitsVal rest : Nat) : Int) else none
  | '-' :: rest => if digitsOK rest then some (-((digitsVal rest : Nat) : Int)) else none
  | rest => if digitsOK rest then some ((digitsVal rest : Nat) : Int) else none

/-- `classificar_score` of `detectorteoria.py`: attempt `int()` conversion
and map into the five colour/label bands; a failed conversion (the caught
`ValueError`/`TypeError`) yields the indeterminate label. -/
def classificar_score (score_str : List Char) : List Char × List Char :=
  match pyIntOfString? score_str with
  | some score =>
    if score ≤ 20 then ("green".data, "ALTAMENTE CONFIÁVEL".data)
    else if score ≤ 40 then ("yellow".data, "MAIORITARIAMENTE VERDADEIRO".data)
    else if score ≤ 60 then ("orange3".data, "SUSPEITO / VERIFICAR".data)
    else if score ≤ 80 then ("red".data, "PROVÁVEL DESINFORMAÇÃO".data)
    else ("bold red".data, "DESINFORMAÇÃO CONFIRMADA".data)
  | none => ("white".data, "INDETERMINADO".data)

/-- **C3.** `classificar_score` maps the boundary inputs
`"0","20","21","40","41","60","61","80","81","100"` to the five severity
bands in the order 1,1,2,2,3,3,4,4,5,5; every string that does not convert
to an integer — in particular the `"N/A"` sentinel — is answered with the
distinguished `INDETERMINADO` label instead of an error. -/
theorem classificar_score_bandas :
    (["0", "20", "21", "40", "41", "60", "61", "80", "81", "100"].map
        (fun s => classificar_score s.data) =
      [("green".data, "ALTAMENTE CONFIÁVEL".data),
       ("green".data, "ALTAMENTE CONFIÁVEL".data),
       ("yellow".data, "MAIORITARIAMENTE VERDADEIRO".data),
       ("yellow".data, "MAIORITARIAMENTE VERDADEIRO".data),
       ("orange3".data, "SUSPEITO / VERIFICAR".data),
       ("orange3".data, "SUSPEITO / VERIFICAR".data),
       ("red".data, "PROVÁVEL DESINFORMAÇÃO".data),
       ("red".data, "PROVÁVEL DESINFORMAÇÃO".data),
       ("bold red".data, "DESINFORMAÇÃO CONFIRMADA".data),
       ("bold red".data, "DESINFORMAÇÃO CONFIRMADA".data)]) ∧
    classificar_score "N/A".data = ("white".data, "INDETERMINADO".data) ∧
    (∀ l : List Char, pyIntOfString? l = none →
      classificar_score l = ("white".data, "INDETERMINADO".data)) := by
  refine ⟨by decide, by decide, fun l h => ?_⟩
  simp only [classificar_score, h]

/-- Witness for `classificar_score_bandas` at the non-numeric input
`"garbage"`. -/
theorem classificar_score_bandas_witness :
    pyIntOfString? "garbage".data = none ∧
    classificar_score "garbage".data = ("white".data, "INDETERMINADO".data) :=
  ⟨by decide, classificar_score_bandas.2.2 "garbage".data (by decide)⟩

/-- **C10.** `classificar_score` performs no range validation: every string
`int()` accepts is classified, including signed values and values with
surrounding whitespace; every negative value falls into the lowest-severity
band and every value above 80 — with no upper limit — into the
highest-severity band.  The inputs `"  -5 "` and `"+999"` are accepted. -/
theorem classificar_score_sem_validacao :
    (∀ (l : List Char) (n : Int), pyIntOfString? l = some n → n < 0 →
      classificar_score l = ("green".data, "ALTAMENTE CONFIÁVEL".data)) ∧
    (∀ (l : List Char) (n : Int), pyIntOfString? l = some n → 80 < n →
      classificar_score l = ("bold red".data, "DESINFORMAÇÃO CONFIRMADA".data)) ∧
    pyIntOfString? "  -5 ".data = some (-5) ∧
    pyIntOfString? "+999".data = some 999 := by
  refine ⟨fun l n h hn => ?_, fun l n h hn => ?_, by decide, by decide⟩
  · simp only [classificar_score, h]
    rw [if_pos (by omega : n ≤ 20)]
  · simp only [classificar_score, h]
    rw [if_neg (by omega : ¬n ≤ 20), if_neg (by omega : ¬n ≤ 40),
      if_neg (by omega : ¬n ≤ 60), if_neg (by omega : ¬n ≤ 80)]

/-- Witness for `classificar_score_sem_validacao`: the negative input
`"  -5 "` and the out-of-range input `"+999"` are both classified. -/
theorem classificar_score_sem_validacao_witness :
    classificar_score "  -5 ".data = ("green".data, "ALTAMENTE CONFIÁVEL".data) ∧
    classificar_score "+999".data = ("bold red".data, "DESINFORMAÇÃO CONFIRMADA".data) :=
  ⟨classificar_score_sem_validacao.1 "  -5 ".data (-5) (by decide) (by decide),
   classificar_score_sem_validacao.2.1 "+999".data 999 (by decide) (by decide)⟩

/-- The character class kept by the `re.sub(r"[^\w\s-]", "", nome)` step of
`sanitizar_nome` (sub with an empty replacement deletes the complement). -/
def keepSan (c : Char) : Bool :=
  isWordChar c || isSpaceChar c || c = '-'

/-- One character of Python `str.replace(" ", "_")` (the pattern and the
replacement both have length one, so replace acts pointwise). -/
def replSpace (c : Char) : Char :=
  if c = ' ' then '_' else c

/-- `sanitizar_nome` of `detectorteoria.py`:
`re.sub(r"[^\w\s-]", "", nome).strip().replace(" ", "_")[:50]`. -/
def sanitizar_nome (nome : List Char) : List Char :=
  ((pyStrip (nome.filter keepSan)).map replSpace).take 50

/-- The last character of a list, or the default `d` when it is empty. -/
def lastCharD (l : List Char) (d : Char) : Char :=
  l.reverse.headD d

theorem map_id_of_mem (f : Char → Char) :
    ∀ l : List Char, (∀ c ∈ l, f c = c) → l.map f = l := by
  intro l h
  induction l with
  | nil => rfl
  | cons c cs ih =>
    simp only [List.map_cons]
    rw [h c (List.mem_cons_self c cs), ih fun x hx => h x (List.mem_cons_of_mem c hx)]

theorem dropWhile_shape (p : Char → Bool) (l : List Char) :
    l.dropWhile p = [] ∨ ∃ c cs, l.dropWhile p = c :: cs ∧ p c = false := by
  induction l with
  | nil => exact Or.inl rfl
  | cons a l ih =>
    rw [List.dropWhile_cons]
    by_cases h : p a = true
    · rw [if_pos h]; exact ih
    · rw [if_neg h]
      exact Or.inr ⟨a, l, rfl, by simpa using h⟩

theorem pyStrip_subset (l : List Char) : ∀ c ∈ pyStrip l, c ∈ l := by
  intro c hc
  unfold pyStrip at hc
  rw [List.mem_reverse] at hc
  have h1 := (List.dropWhile_suffix isSpaceChar).subset hc
  rw [List.mem_reverse] at h1
  exact (List.dropWhile_suffix isSpaceChar).subset h1

theorem pyStrip_isPre (l : List Char) : pyStrip l <+: l.dropWhile isSpaceChar := by
  have h := List.reverse_prefix.mpr
    (List.dropWhile_suffix (l := (l.dropWhile isSpaceChar).reverse) isSpaceChar)
  rwa [List.reverse_reverse] at h

theorem sanitizar_mem_keep (s : List Char) : ∀ c ∈ sanitizar_nome s, keepSan c := by
  intro c hc
  unfold sanitizar_nome at hc
  have hc1 : c ∈ (pyStrip (s.filter keepSan)).map replSpace := List.mem_of_mem_take hc
  rw [List.mem_map] at hc1
  obtain ⟨c', hc', rfl⟩ := hc1
  have hc2 : c' ∈ s.filter keepSan := pyStrip_subset _ c' hc'
  have hk : keepSan c' := (List.mem_filter.mp hc2).2
  by_cases hsp : c' = ' '
  · subst hsp; decide
  · unfold replSpace; rw [if_neg hsp]; exact hk

theorem sanitizar_no_space (s : List Char) : ∀ c ∈ sanitizar_nome s, c ≠ ' ' := by
  intro c hc
  unfold sanitizar_nome at hc
  have hc1 : c ∈ (pyStrip (s.filter keepSan)).map replSpace := List.mem_of_mem_take hc
  rw [List.mem_map] at hc1
  obtain ⟨c', _, rfl⟩ := hc1
  unfold replSpace
  by_cases hsp : c' = ' '
  · rw [if_pos hsp]; decide
  · rw [if_neg hsp]; exact hsp

theorem sanitizar_head_shape (s : List Char) :
    sanitizar_nome s = [] ∨
      ∃ c cs, sanitizar_nome s = c :: cs ∧ isSpaceChar c = false := by
  cases ht : pyStrip (s.filter keepSan) with
  | nil =>
    left
    unfold sanitizar_nome
    rw [ht]
    rfl
  | cons c' t' =>
    right
    have hpre : pyStrip (s.filter keepSan) <+: (s.filter keepSan).dropWhile isSpaceChar :=
      pyStrip_isPre _
    rw [ht] at hpre
    have hcs : isSpaceChar c' = false := by
      cases dropWhile_shape isSpaceChar (s.filter keepSan) with
      | inl h => rw [h] at hpre; exact absurd hpre (by simp)
      | inr h =>
        obtain ⟨c0, cs0, heq, hc0⟩ := h
        rw [heq] at hpre
        obtain ⟨t, ht2⟩ := hpre
        injection ht2 with h1 _
        exact h1 ▸ hc0
    have hc'ne : c' ≠ ' ' := by
      intro he; rw [he] at hcs; exact absurd hcs (by decide)
    refine ⟨c', (t'.map replSpace).take 49, ?_, hcs⟩
    unfold sanitizar_nome
    rw [ht]
    simp only [List.map_cons]
    rw [show (50 : Nat) = 49 + 1 from rfl, List.take_succ_cons]
    unfold replSpace
    rw [if_neg hc'ne]

theorem pyStrip_fix (l : List Char)
    (hh : l = [] ∨ ∃ c cs, l = c :: cs ∧ isSpaceChar c = false)
    (hl : isSpaceChar (lastCharD l 'x') = false) :
    pyStrip l = l := by
  have h1 : l.dropWhile isSpaceChar = l := by
    cases hh with
    | inl h => rw [h]; rfl
    | inr h =>
      obtain ⟨c, cs, rfl, hc⟩ := h
      rw [List.dropWhile_cons, if_neg (by simp [hc])]
  unfold pyStrip
  rw [h1]
  cases hrev : l.reverse with
  | nil =>
    have : l = [] := by simpa using congrArg List.reverse hrev
    rw [this]
    rfl
  | cons d es =>
    have hd : isSpaceChar d = false := by
      unfold lastCharD at hl
      rwa [hrev] at hl
    rw [List.dropWhile_cons, if_neg (by simp [hd]), ← hrev, List.reverse_reverse]

theorem sanitizar_length_le (s : List Char) : (sanitizar_nome s).length ≤ 50 := by
  unfold sanitizar_nome
  rw [List.length_take]
  exact Nat.min_le_left _ _

/-- **C4 (counterexample).** Sanitizing 49 `a`s followed by a tab and a `b`
gives 49 `a`s followed by a tab (truncation at 50 cuts off the `b`); a
second sanitization strips the now-trailing tab, so `sanitizar_nome` is not
idempotent on this input. -/
theorem sanitizar_nome_cex :
    sanitizar_nome (sanitizar_nome (List.replicate 49 'a' ++ ['\t', 'b'])) ≠
      sanitizar_nome (List.replicate 49 'a' ++ ['\t', 'b']) := by
  decide

/-- **C4 (amended).** The sanitized name never exceeds 50 characters, and
sanitization is idempotent for every input whose sanitized result does not
end in a whitespace character (the only way truncation at the 50-character
bound can expose a character that a second pass would strip). -/
theorem sanitizar_nome_amended :
    (∀ s : List Char, (sanitizar_nome s).length ≤ 50) ∧
    (∀ s : List Char, isSpaceChar (lastCharD (sanitizar_nome s) 'x') = false →
      sanitizar_nome (sanitizar_nome s) = sanitizar_nome s) := by
  refine ⟨sanitizar_length_le, fun s hlast => ?_⟩
  have hfil : (sanitizar_nome s).filter keepSan = sanitizar_nome s :=
    List.filter_eq_self.mpr (sanitizar_mem_keep s)
  have hstrip : pyStrip (sanitizar_nome s) = sanitizar_nome s :=
    pyStrip_fix _ (sanitizar_head_shape s) hlast
  have hmap : (sanitizar_nome s).map replSpace = sanitizar_nome s :=
    map_id_of_mem _ _ fun c hc => by
      unfold replSpace; rw [if_neg (sanitizar_no_space s c hc)]
  show ((pyStrip ((sanitizar_nome s).filter keepSan)).map replSpace).take 50 = sanitizar_nome s
  rw [hfil, hstrip, hmap]
  exact List.take_of_length_le (sanitizar_length_le s)

/-- Witness for `sanitizar_nome_amended` at `"A claim: the moon!"`, whose
sanitized form `"A_claim_the_moon"` ends in a non-whitespace character. -/
theorem sanitizar_nome_amended_witness :
    isSpaceChar (lastCharD (sanitizar_nome "A claim: the moon!".data) 'x') = false ∧
    sanitizar_nome (sanitizar_nome "A claim: the moon!".data) =
      sanitizar_nome "A claim: the moon!".data :=
  ⟨by decide, sanitizar_nome_amended.2 "A claim: the moon!".data (by decide)⟩

/-- One Tavily search hit, as the dictionaries consumed by the formatting
helpers: a `none` field models an absent dictionary key (`dict.get`
supplies the default). -/
structure EvidItem where
  url : Option (List Char)
  title : Option (List Char)
  published_date : Option (List Char)
  content : Option (List Char)
deriving DecidableEq

/-- The Tavily response dictionary: the `results` list and the optional
direct `answer`. -/
structure EvidenceSet where
  results : List EvidItem
  answer : Option (List Char)
deriving DecidableEq

/-- One `<tr>` row of `gerar_tabela_fontes_html` for item `r` at 1-based
citation index `i`, exactly as the f-string in the loop body builds it. -/
def linhaFonte (i : Nat) (r : EvidItem) : List Char :=
  "\n        <tr>\n            <td><strong>[".data ++ Nat.toDigits 10 i ++
    "]</strong></td>\n            <td>".data ++ r.title.getD "N/D".data ++
    "</td>\n            <td class=\"url-fonte\"><a href=\"".data ++ r.url.getD "N/D".data ++
    "\">".data ++ r.url.getD "N/D".data ++
    "</a></td>\n            <td>".data ++ r.published_date.getD "N/D".data ++
    "</td>\n            <td>".data ++
    (match r.content with
     | some c => if c = [] then "N/D".data else c.take 250 ++ "...".data
     | none => "N/D".data) ++
    "</td>\n        </tr>".data

/-- The accumulated `linhas` string of `gerar_tabela_fontes_html`'s
`for i, r in enumerate(resultados, 1)` loop, started at index `i`. -/
def linhasFontes : Nat → List EvidItem → List Char
  | _, [] => []
  | i, r :: rs => linhaFonte i r ++ linhasFontes (i + 1) rs

/-- The fixed table markup emitted before the rows. -/
def tabelaCabecalho : List Char :=
  ("\n    <table>\n        <thead>\n            <tr>\n                <th>#</th>\n" ++
    "                <th>Título</th>\n                <th>URL</th>\n" ++
    "                <th>Data</th>\n                <th>Trecho</th>\n" ++
    "            </tr>\n        </thead>\n        <tbody>").data

/-- The fixed table markup emitted after the rows. -/
def tabelaRodape : List Char :=
  "</tbody>\n    </table>".data

/-- `gerar_tabela_fontes_html` of `detectorteoria.py`. -/
def gerar_tabela_fontes_html (evidencias : EvidenceSet) : List Char :=
  if evidencias.results = [] then
    "<p><em>Nenhuma fonte encontrada na busca.</em></p>".data
  else
    tabelaCabecalho ++ linhasFontes 1 evidencias.results ++ tabelaRodape

/-- The lines accumulated by `formatar_evidencias_para_prompt`'s
`for i, r in enumerate(resultados, 1)` loop, started at index `i` (each
iteration appends five text lines and one empty line). -/
def linhasEvidencia : Nat → List EvidItem → List (List Char)
  | _, [] => []
  | i, r :: rs =>
    ("--- FONTE [".data ++ Nat.toDigits 10 i ++ "] ---".data) ::
    ("URL: ".data ++ r.url.getD "N/D".data) ::
    ("Título: ".data ++ r.title.getD "N/D".data) ::
    ("Data: ".data ++ r.published_date.getD "N/D".data) ::
    ("Conteúdo relevante: ".data ++ (r.content.getD "N/D".data).take 800) ::
    [] :: linhasEvidencia (i + 1) rs

/-- `formatar_evidencias_para_prompt` of `detectorteoria.py`. -/
def formatar_evidencias_para_prompt (evidencias : EvidenceSet) : List Char :=
  if evidencias.results = [] then "Nenhuma evidência encontrada.".data
  else List.intercalate ['\n'] (linhasEvidencia 1 evidencias.results)

/-- The `prompt_usuario` f-string assembled by `gerar_laudo_ia` (the part of
report generation that depends on the evidence set). -/
def prompt_usuario (fato : List Char) (evidencias : EvidenceSet) : List Char :=
  "OBJETO DE INVESTIGAÇÃO:\n".data ++
    (fato ++
      ("\n\nEVIDÊNCIAS COLETADAS PELA BUSCA WEB (".data ++
        (Nat.toDigits 10 evidencias.results.length ++
          (" fontes):\n\n".data ++
            (formatar_evidencias_para_prompt evidencias ++
              ("\n\nRESPOSTA AUTOMÁTICA DA BUSCA (se disponível):\n".data ++
                evidencias.answer.getD "Não disponível".data))))))

theorem linhasFontes_eq_zip :
    ∀ (rs : List EvidItem) (i : Nat),
      linhasFontes i rs =
        (List.zipWith linhaFonte (List.range' i rs.length) rs).flatten := by
  intro rs
  induction rs with
  | nil => intro i; rfl
  | cons r rs ih =>
    intro i
    rw [List.length_cons, List.range'_succ, List.zipWith_cons_cons,
      List.flatten_cons, linhasFontes, ih]

/-- **C5.** For every non-empty evidence set, the evidence table is the
fixed header, then exactly one `<tr>` row per result item — in input order,
each paired with its 1-based citation index by `zipWith` over
`[1, …, n]` — then the fixed footer; the number of rows equals the number
of result items. -/
theorem gerar_tabela_fontes_rows (evidencias : EvidenceSet)
    (h : evidencias.results ≠ []) :
    gerar_tabela_fontes_html evidencias =
      tabelaCabecalho ++
        (List.zipWith linhaFonte (List.range' 1 evidencias.results.length)
            evidencias.results).flatten ++ tabelaRodape ∧
    (List.zipWith linhaFonte (List.range' 1 evidencias.results.length)
        evidencias.results).length = evidencias.results.length := by
  constructor
  · unfold gerar_tabela_fontes_html
    rw [if_neg h, linhasFontes_eq_zip, List.append_assoc]
  · rw [List.length_zipWith]
    simp

/-- A fixed evidence set with three result items. -/
def evidSet3 : EvidenceSet :=
  ⟨[⟨some "https://a.example".data, some "Fonte A".data,
      some "2024-01-01".data, some "conteudo A".data⟩,
    ⟨some "https://b.example".data, some "Fonte B".data, none, none⟩,
    ⟨none, some "Fonte C".data, some "2024-03-03".data, some "conteudo C".data⟩],
   none⟩

/-- Witness for `gerar_tabela_fontes_rows` at the three-item set
`evidSet3`: three rows, in order, with citation indices 1, 2, 3. -/
theorem gerar_tabela_fontes_rows_witness :
    evidSet3.results ≠ [] ∧
    (gerar_tabela_fontes_html evidSet3 =
        tabelaCabecalho ++
          (List.zipWith linhaFonte (List.range' 1 evidSet3.results.length)
              evidSet3.results).flatten ++ tabelaRodape ∧
      (List.zipWith linhaFonte (List.range' 1 evidSet3.results.length)
          evidSet3.results).length = evidSet3.results.length) :=
  ⟨by decide, gerar_tabela_fontes_rows evidSet3 (by decide)⟩

theorem hasSub_append_right (pat y : List Char) (h : hasSub pat y = true) :
    ∀ x : List Char, hasSub pat (x ++ y) = true := by
  intro x
  induction x with
  | nil => exact h
  | cons c cs ih =>
    rw [List.cons_append]
    simp only [hasSub, ih, Bool.or_true]

theorem hasSub_of_isPre (pat l : List Char) (h : pat.isPrefixOf l = true) :
    hasSub pat l = true := by
  cases l with
  | nil => simpa [hasSub] using h
  | cons c cs => simp only [hasSub, h, Bool.true_or]

/-- **C7.** An empty result set is not an error: prompt assembly returns the
`"Nenhuma evidência encontrada."` placeholder, the evidence-table builder
returns a placeholder paragraph, and the assembled generation prompt (the
downstream consumer of the formatted evidence) simply embeds the
placeholder, for every claim text and every optional direct answer. -/
theorem evidencias_vazias_ok :
    formatar_evidencias_para_prompt ⟨[], none⟩ = "Nenhuma evidência encontrada.".data ∧
    gerar_tabela_fontes_html ⟨[], none⟩ =
      "<p><em>Nenhuma fonte encontrada na busca.</em></p>".data ∧
    (∀ (fato : List Char) (ans : Option (List Char)),
      hasSub "Nenhuma evidência encontrada.".data (prompt_usuario fato ⟨[], ans⟩) = true) := by
  refine ⟨rfl, rfl, fun fato ans => ?_⟩
  show hasSub _ (_ ++ _) = true
  apply hasSub_append_right
  apply hasSub_append_right
  apply hasSub_append_right
  apply hasSub_append_right
  apply hasSub_append_right
  have hf : formatar_evidencias_para_prompt ⟨[], ans⟩ =
      "Nenhuma evidência encontrada.".data := rfl
  rw [hf]
  exact hasSub_of_isPre _ _ (List.isPrefixOf_iff_prefix.mpr (List.prefix_append _ _))

/-- Python `str.upper()` (over the ASCII range). -/
def pyUpper (l : List Char) : List Char :=
  l.map Char.toUpper

/-- The verdict-to-badge `mapping` dictionary of `determinar_badge_class`
(`dict.get` on distinct keys is association-list lookup). -/
def badgeMapping : List (List Char × List Char) :=
  [("VERDADEIRO".data, "badge-verdadeiro".data),
   ("FALSO".data, "badge-falso".data),
   ("PARCIAL".data, "badge-parcial".data),
   ("CONTEXTO".data, "badge-contexto".data),
   ("INCONCLUSIVO".data, "badge-inconclusivo".data),
   ("DESATUALIZADO".data, "badge-inconclusivo".data)]

/-- `determinar_badge_class` of `detectorteoria.py`:
`mapping.get(veredito.upper(), "badge-inconclusivo")`. -/
def determinar_badge_class (veredito : List Char) : List Char :=
  (badgeMapping.lookup (pyUpper veredito)).getD "badge-inconclusivo".data

/-- **C8.** `determinar_badge_class` is total over a closed mapping: each of
the six verdict codes maps — case-insensitively — to its badge class, with
`DESATUALIZADO` sharing the inconclusive badge; the result is always one of
the five badge classes, and any verdict whose uppercasing is outside the
mapping falls back to `"badge-inconclusivo"`. -/
theorem determinar_badge_total :
    (["VERDADEIRO", "FALSO", "PARCIAL", "CONTEXTO", "INCONCLUSIVO", "DESATUALIZADO",
      "verdadeiro", "Falso", "parcial", "contexto", "inconclusivo", "desatualizado"].map
        (fun s => determinar_badge_class s.data) =
      ["badge-verdadeiro".data, "badge-falso".data, "badge-parcial".data,
       "badge-contexto".data, "badge-inconclusivo".data, "badge-inconclusivo".data,
       "badge-verdadeiro".data, "badge-falso".data, "badge-parcial".data,
       "badge-contexto".data, "badge-inconclusivo".data, "badge-inconclusivo".data]) ∧
    (∀ v : List Char,
      determinar_badge_class v = "badge-verdadeiro".data ∨
      determinar_badge_class v = "badge-falso".data ∨
      determinar_badge_class v = "badge-parcial".data ∨
      determinar_badge_class v = "badge-contexto".data ∨
      determinar_badge_class v = "badge-inconclusivo".data) ∧
    (∀ v : List Char, badgeMapping.lookup (pyUpper v) = none →
      determinar_badge_class v = "badge-inconclusivo".data) := by
  refine ⟨by decide, fun v => ?_, fun v h => ?_⟩
  · unfold determinar_badge_class badgeMapping
    simp only [List.lookup]
    repeat' split
    all_goals simp [Option.getD]
  · unfold determinar_badge_class
    rw [h]
    rfl

/-- Witness for `determinar_badge_total` at the unknown verdict code
`"FAKE_NEWS"`, which falls back to the inconclusive badge. -/
theorem determinar_badge_total_witness :
    badgeMapping.lookup (pyUpper "FAKE_NEWS".data) = none ∧
    determinar_badge_class "FAKE_NEWS".data = "badge-inconclusivo".data :=
  ⟨by decide, determinar_badge_total.2.2 "FAKE_NEWS".data (by decide)⟩

theorem space_chars (c : Char) (h : isSpaceChar c = true) :
    c = ' ' ∨ c = '\t' ∨ c = '\n' ∨ c = '\x0d' ∨ c = '\x0b' ∨ c = '\x0c' := by
  unfold isSpaceChar at h
  simp only [Bool.or_eq_true, decide_eq_true_eq] at h
  tauto

theorem digit_not_space (c : Char) (h : isDigitChar c = true) : isSpaceChar c = false := by
  cases hs : isSpaceChar c with
  | false => rfl
  | true =>
    exfalso
    rcases space_chars c hs with rfl | rfl | rfl | rfl | rfl | rfl <;>
      exact absurd h (by decide)

theorem dropLit_self_append : ∀ p rest : List Char, dropLit p (p ++ rest) = some rest := by
  intro p
  induction p with
  | nil => intro rest; simp [dropLit]
  | cons c cs ih =>
    intro rest
    rw [List.cons_append]
    simp only [dropLit, if_pos rfl]
    exact ih rest

theorem dropLit_eq_some_iff : ∀ p x r : List Char, dropLit p x = some r ↔ x = p ++ r := by
  intro p
  induction p with
  | nil =>
    intro x r
    simp [dropLit]
  | cons a ps ih =>
    intro x r
    cases x with
    | nil => simp [dropLit]
    | cons c cs =>
      by_cases h : c = a
      · subst h
        simp only [dropLit, if_pos rfl, List.cons_append, List.cons.injEq, true_and]
        exact ih cs r
      · simp only [dropLit, if_neg h, List.cons_append]
        constructor
        · intro hh; cases hh
        · intro hh
          injection hh with h1 _
          exact absurd h1 h

theorem matchConspirAt_none_of_no_lit (x : List Char)
    (h : dropLit "MÉDIA CONSPIR".data x = none) : matchConspirAt x = none := by
  unfold matchConspirAt
  rw [h]

theorem reSearch_of_match (m : List Char → Option (List Char)) (l v : List Char)
    (h : m l = some v) : reSearch m l = some v := by
  cases l with
  | nil => simpa [reSearch] using h
  | cons c cs => simp only [reSearch, h]

theorem reSearch_skip_suffix (m : List Char → Option (List Char)) (rest : List Char) :
    ∀ pre : List Char, (∀ s : List Char, s ≠ [] → s <:+ pre → m (s ++ rest) = none) →
      reSearch m (pre ++ rest) = reSearch m rest := by
  intro pre
  induction pre with
  | nil => intro _; rfl
  | cons c cs ih =>
    intro h
    have h0 : m ((c :: cs) ++ rest) = none :=
      h (c :: cs) (by simp) (List.suffix_refl _)
    rw [List.cons_append] at h0 ⊢
    simp only [reSearch, h0]
    exact ih fun s hs hsuf => h s hs (hsuf.trans (List.suffix_cons c cs))

theorem hasSub_of_isPre_suffix (pat : List Char) :
    ∀ l s : List Char, pat <+: s → s <:+ l → hasSub pat l = true := by
  intro l
  induction l with
  | nil =>
    intro s hp hs
    have hs0 : s = [] := List.suffix_nil.mp hs
    subst hs0
    have hp0 : pat = [] := List.prefix_nil.mp hp
    subst hp0
    decide
  | cons c cs ih =>
    intro s hp hs
    rcases List.suffix_cons_iff.mp hs with rfl | hs'
    · have hb : pat.isPrefixOf (c :: cs) = true := List.isPrefixOf_iff_prefix.mpr hp
      simp only [hasSub, hb, Bool.true_or]
    · have hb := ih s hp hs'
      simp only [hasSub, hb, Bool.or_true]

theorem takeWhile_all_append (p : Char → Bool) :
    ∀ l m : List Char, (∀ c ∈ l, p c = true) →
      (l ++ m).takeWhile p = l ++ m.takeWhile p := by
  intro l
  induction l with
  | nil => intro m _; rfl
  | cons c cs ih =>
    intro m h
    rw [List.cons_append, List.takeWhile_cons, if_pos (h c (List.mem_cons_self c cs)),
      ih m fun x hx => h x (List.mem_cons_of_mem c hx), List.cons_append]

theorem matchConspirNum_eval_int (ip post : List Char)
    (hip : ip ≠ []) (hipd : ∀ c ∈ ip, isDigitChar c = true) :
    matchConspirNum (ip ++ '/' :: '1' :: '0' :: post) = some ip := by
  have htw : (ip ++ '/' :: '1' :: '0' :: post).takeWhile isDigitChar = ip := by
    rw [takeWhile_all_append isDigitChar ip _ hipd, List.takeWhile_cons,
      if_neg (by decide), List.append_nil]
  unfold matchConspirNum
  rw [htw, if_neg hip, List.drop_left]
  show (if ('/' : Char) = '.' then _ else _) = some ip
  rw [if_neg (by decide : ¬('/' : Char) = '.'),
    if_pos (List.isPrefixOf_iff_prefix.mpr ⟨post, rfl⟩ :
      "/10".data.isPrefixOf ('/' :: '1' :: '0' :: post) = true)]

theorem matchConspirNum_eval_frac (ip fp post : List Char)
    (hip : ip ≠ []) (hipd : ∀ c ∈ ip, isDigitChar c = true)
    (hfp : fp ≠ []) (hfpd : ∀ c ∈ fp, isDigitChar c = true) :
    matchConspirNum (ip ++ '.' :: (fp ++ '/' :: '1' :: '0' :: post)) =
      some (ip ++ '.' :: fp) := by
  have htw : (ip ++ '.' :: (fp ++ '/' :: '1' :: '0' :: post)).takeWhile isDigitChar = ip := by
    rw [takeWhile_all_append isDigitChar ip _ hipd, List.takeWhile_cons,
      if_neg (by decide), List.append_nil]
  have htw2 : (fp ++ '/' :: '1' :: '0' :: post).takeWhile isDigitChar = fp := by
    rw [takeWhile_all_append isDigitChar fp _ hfpd, List.takeWhile_cons,
      if_neg (by decide), List.append_nil]
  unfold matchConspirNum
  rw [htw, if_neg hip, List.drop_left]
  show (if ('.' : Char) = '.' then _ else _) = some (ip ++ '.' :: fp)
  rw [if_pos rfl, htw2, if_neg hfp, List.drop_left,
    if_pos (List.isPrefixOf_iff_prefix.mpr ⟨post, rfl⟩ :
      "/10".data.isPrefixOf ('/' :: '1' :: '0' :: post) = true)]

theorem dropWhile_all_append (p : Char → Bool) :
    ∀ l m : List Char, (∀ c ∈ l, p c = true) →
      (l ++ m).dropWhile p = m.dropWhile p := by
  intro l
  induction l with
  | nil => intro m _; rfl
  | cons c cs ih =>
    intro m h
    rw [List.cons_append, List.dropWhile_cons, if_pos (h c (List.mem_cons_self c cs))]
    exact ih m fun x hx => h x (List.mem_cons_of_mem c hx)

theorem dropStar_cons_ne (c : Char) (y : List Char) (h : ¬c = '*') :
    dropStar (c :: y) = c :: y := by
  simp only [dropStar, if_neg h]

theorem dropStar_star (y : List Char) : dropStar ('*' :: y) = y := by
  simp [dropStar]

/-- Under the first-candidate hypothesis — the literal `MÉDIA CONSPIR` does
not occur in `pre` — no regex match can start inside `pre` or straddle the
boundary into the marker (the literal's only `'M'` is its first character). -/
theorem no_lit_match_in_pre (pre tail : List Char)
    (hpre : hasSub "MÉDIA CONSPIR".data pre = false) :
    ∀ s : List Char, s ≠ [] → s <:+ pre →
      matchConspirAt (s ++ ("MÉDIA CONSPIR".data ++ tail)) = none := by
  intro s hs hsuf
  cases hd : dropLit "MÉDIA CONSPIR".data (s ++ ("MÉDIA CONSPIR".data ++ tail)) with
  | none => exact matchConspirAt_none_of_no_lit _ hd
  | some r =>
    exfalso
    have heq : s ++ ("MÉDIA CONSPIR".data ++ tail) = "MÉDIA CONSPIR".data ++ r :=
      (dropLit_eq_some_iff _ _ _).mp hd
    have hlen : ("MÉDIA CONSPIR".data).length = 13 := rfl
    rcases Nat.lt_or_ge s.length ("MÉDIA CONSPIR".data).length with hlt | hge
    · have hs_take : s = "MÉDIA CONSPIR".data.take s.length := by
        have h1 := congrArg (List.take s.length) heq
        rw [List.take_left] at h1
        rwa [List.take_append_of_le_length (Nat.le_of_lt hlt)] at h1
      have hsplit : "MÉDIA CONSPIR".data = s ++ "MÉDIA CONSPIR".data.drop s.length := by
        conv_lhs => rw [← List.take_append_drop s.length "MÉDIA CONSPIR".data]
        rw [← hs_take]
      have hcan : "MÉDIA CONSPIR".data ++ tail =
          "MÉDIA CONSPIR".data.drop s.length ++ r := by
        have hstep : s ++ ("MÉDIA CONSPIR".data ++ tail) =
            s ++ ("MÉDIA CONSPIR".data.drop s.length ++ r) :=
          calc s ++ ("MÉDIA CONSPIR".data ++ tail)
              = "MÉDIA CONSPIR".data ++ r := heq
            _ = (s ++ "MÉDIA CONSPIR".data.drop s.length) ++ r := by rw [← hsplit]
            _ = s ++ ("MÉDIA CONSPIR".data.drop s.length ++ r) := by rw [List.append_assoc]
        exact List.append_cancel_left hstep
      have hdne : "MÉDIA CONSPIR".data.drop s.length ≠ [] := by
        intro h0
        have := List.drop_eq_nil_iff.mp h0
        omega
      obtain ⟨c, cs2, hccs⟩ := List.exists_cons_of_ne_nil hdne
      have hcM : c = 'M' := by
        have h2 := congrArg List.head? hcan
        rw [hccs] at h2
        rw [show "MÉDIA CONSPIR".data ++ tail =
          'M' :: ("ÉDIA CONSPIR".data ++ tail) from rfl] at h2
        simpa using h2.symm
      have hfin : ∀ k, k < 13 → 1 ≤ k →
          ¬("MÉDIA CONSPIR".data.drop k).head? = some 'M' := by decide
      have hk1 : 1 ≤ s.length := List.length_pos.mpr hs
      have hk2 : s.length < 13 := by omega
      exact hfin s.length hk2 hk1 (by rw [hccs, hcM]; rfl)
    · have hs_take : s.take ("MÉDIA CONSPIR".data).length = "MÉDIA CONSPIR".data := by
        have h1 := congrArg (List.take ("MÉDIA CONSPIR".data).length) heq
        rw [List.take_left] at h1
        rwa [List.take_append_of_le_length hge] at h1
      have hp : "MÉDIA CONSPIR".data <+: s := by
        rw [← hs_take]
        exact List.take_prefix _ _
      have := hasSub_of_isPre_suffix "MÉDIA CONSPIR".data pre s hp hsuf
      rw [hpre] at this
      cases this

/-- Evaluation of the CONSPIR regex at the marker itself: after the literal
comes any `\s*` run, the `|`, a second `\s*` run, zero to two asterisks, and
then the numeric part starting with a digit. -/
theorem matchConspirAt_sep (ws1 ws2 stars y : List Char) (c0 : Char)
    (hws1 : ∀ c ∈ ws1, isSpaceChar c = true) (hws2 : ∀ c ∈ ws2, isSpaceChar c = true)
    (hstars : stars = [] ∨ stars = ['*'] ∨ stars = ['*', '*'])
    (hc0 : isDigitChar c0 = true) :
    matchConspirAt
        ("MÉDIA CONSPIR".data ++ (ws1 ++ ('|' :: (ws2 ++ (stars ++ (c0 :: y)))))) =
      matchConspirNum (c0 :: y) := by
  have hstar0 : ¬c0 = '*' := by rintro rfl; exact absurd hc0 (by decide)
  have hds : dropStar (dropStar
      (List.dropWhile isSpaceChar (ws2 ++ (stars ++ (c0 :: y))))) = c0 :: y := by
    rw [dropWhile_all_append _ _ _ hws2]
    rcases hstars with rfl | rfl | rfl
    · rw [List.nil_append, List.dropWhile_cons,
        if_neg (by simp [digit_not_space c0 hc0]), dropStar_cons_ne c0 y hstar0,
        dropStar_cons_ne c0 y hstar0]
    · rw [show ['*'] ++ (c0 :: y) = '*' :: (c0 :: y) from rfl, List.dropWhile_cons,
        if_neg (by decide), dropStar_star, dropStar_cons_ne c0 y hstar0]
    · rw [show ['*', '*'] ++ (c0 :: y) = '*' :: '*' :: (c0 :: y) from rfl,
        List.dropWhile_cons, if_neg (by decide), dropStar_star, dropStar_star]
  unfold matchConspirAt
  rw [dropLit_self_append]
  show (match List.dropWhile isSpaceChar (ws1 ++ ('|' :: (ws2 ++ (stars ++ (c0 :: y))))) with
    | [] => none
    | c :: r2 =>
      if c = '|' then matchConspirNum (dropStar (dropStar (r2.dropWhile isSpaceChar)))
      else none) = _
  rw [dropWhile_all_append _ _ _ hws1, List.dropWhile_cons, if_neg (by decide)]
  show (if ('|' : Char) = '|' then
      matchConspirNum (dropStar (dropStar
        (List.dropWhile isSpaceChar (ws2 ++ (stars ++ (c0 :: y))))))
    else none) = _
  rw [if_pos rfl, hds]

/-- **C6 (counterexample).** The report text `"MÉDIA 7.5/10 conforme a
tabela"` contains `"MÉDIA"` and the pattern `"7.5/10"`, yet the extractor
leaves `conspir_media` at `"N/A"`: the regex demands the literal
`"MÉDIA CONSPIR"` followed by a `"|"` separator, not just `"MÉDIA"` with a
decimal-over-10 anywhere on the line. -/
theorem conspir_media_cex :
    hasSub "MÉDIA".data "MÉDIA 7.5/10 conforme a tabela".data = true ∧
    hasSub "7.5/10".data "MÉDIA 7.5/10 conforme a tabela".data = true ∧
    (extrair_metricas "MÉDIA 7.5/10 conforme a tabela".data).conspir_media = "N/A".data ∧
    "N/A".data ≠ "7.5/10".data :=
  ⟨by decide, by decide, by decide, by decide⟩

/-- **C6 (amended).** For every report text of the form
`pre ++ "MÉDIA CONSPIR" ++ ws1 ++ "|" ++ ws2 ++ stars ++ d ++ "/10" ++ post`
— where `ws1`, `ws2` are arbitrary whitespace runs, `stars` is zero, one or
two asterisks, `d` is a decimal numeral (digits, or digits-dot-digits), and
the literal `"MÉDIA CONSPIR"` does not occur in `pre` (so the marker is the
text's first candidate match) — the extractor resolves `conspir_media` to
`d ++ "/10"`.  The prefix `pre` is otherwise arbitrary: it may contain the
other three label lines in any order (as in the witness, where it is a
`SCORE_DESINFORMACAO` line).  A line containing only `"MÉDIA"` and a
`"<decimal>/10"` pattern without the `"CONSPIR"`/`"|"` separator does not
match (see the counterexample) and leaves the field at `"N/A"`. -/
theorem conspir_media_amended (pre ws1 ws2 stars post ip fp : List Char)
    (hpre : hasSub "MÉDIA CONSPIR".data pre = false)
    (hws1 : ∀ c ∈ ws1, isSpaceChar c = true)
    (hws2 : ∀ c ∈ ws2, isSpaceChar c = true)
    (hstars : stars = [] ∨ stars = ['*'] ∨ stars = ['*', '*'])
    (hip : ip ≠ []) (hipd : ∀ c ∈ ip, isDigitChar c = true)
    (hfp : fp ≠ []) (hfpd : ∀ c ∈ fp, isDigitChar c = true) :
    (extrair_metricas (pre ++ "MÉDIA CONSPIR".data ++ ws1 ++ ('|' :: ws2) ++ stars ++
        ip ++ "/10".data ++ post)).conspir_media = ip ++ "/10".data ∧
    (extrair_metricas (pre ++ "MÉDIA CONSPIR".data ++ ws1 ++ ('|' :: ws2) ++ stars ++
        (ip ++ '.' :: fp) ++ "/10".data ++ post)).conspir_media =
      (ip ++ '.' :: fp) ++ "/10".data := by
  obtain ⟨c0, tl, rfl⟩ := List.exists_cons_of_ne_nil hip
  have hc0 : isDigitChar c0 = true := hipd c0 (List.mem_cons_self c0 tl)
  constructor
  · have hshape : pre ++ "MÉDIA CONSPIR".data ++ ws1 ++ ('|' :: ws2) ++ stars ++
        (c0 :: tl) ++ "/10".data ++ post =
        pre ++ ("MÉDIA CONSPIR".data ++ (ws1 ++ ('|' :: (ws2 ++ (stars ++
          (c0 :: (tl ++ '/' :: '1' :: '0' :: post))))))) := by
      rw [show "/10".data = ['/', '1', '0'] from rfl]
      simp [List.append_assoc]
    rw [hshape]
    have hmatch : matchConspirAt ("MÉDIA CONSPIR".data ++ (ws1 ++ ('|' :: (ws2 ++
        (stars ++ (c0 :: (tl ++ '/' :: '1' :: '0' :: post))))))) = some (c0 :: tl) := by
      rw [matchConspirAt_sep ws1 ws2 stars _ c0 hws1 hws2 hstars hc0, ← List.cons_append]
      exact matchConspirNum_eval_int (c0 :: tl) post (by simp) hipd
    have hsearch : reSearch matchConspirAt (pre ++ ("MÉDIA CONSPIR".data ++ (ws1 ++
        ('|' :: (ws2 ++ (stars ++ (c0 :: (tl ++ '/' :: '1' :: '0' :: post)))))))) =
        some (c0 :: tl) := by
      rw [reSearch_skip_suffix matchConspirAt _ pre (no_lit_match_in_pre pre _ hpre)]
      exact reSearch_of_match _ _ _ hmatch
    simp only [extrair_metricas, hsearch]
  · have hshape : pre ++ "MÉDIA CONSPIR".data ++ ws1 ++ ('|' :: ws2) ++ stars ++
        ((c0 :: tl) ++ '.' :: fp) ++ "/10".data ++ post =
        pre ++ ("MÉDIA CONSPIR".data ++ (ws1 ++ ('|' :: (ws2 ++ (stars ++
          (c0 :: (tl ++ '.' :: (fp ++ '/' :: '1' :: '0' :: post)))))))) := by
      rw [show "/10".data = ['/', '1', '0'] from rfl]
      simp [List.append_assoc]
    rw [hshape]
    have hmatch : matchConspirAt ("MÉDIA CONSPIR".data ++ (ws1 ++ ('|' :: (ws2 ++
        (stars ++ (c0 :: (tl ++ '.' :: (fp ++ '/' :: '1' :: '0' :: post)))))))) =
        some ((c0 :: tl) ++ '.' :: fp) := by
      rw [matchConspirAt_sep ws1 ws2 stars _ c0 hws1 hws2 hstars hc0, ← List.cons_append]
      exact matchConspirNum_eval_frac (c0 :: tl) fp post (by simp) hipd hfp hfpd
    have hsearch : reSearch matchConspirAt (pre ++ ("MÉDIA CONSPIR".data ++ (ws1 ++
        ('|' :: (ws2 ++ (stars ++ (c0 :: (tl ++ '.' ::
          (fp ++ '/' :: '1' :: '0' :: post))))))))) =
        some ((c0 :: tl) ++ '.' :: fp) := by
      rw [reSearch_skip_suffix matchConspirAt _ pre (no_lit_match_in_pre pre _ hpre)]
      exact reSearch_of_match _ _ _ hmatch
    simp only [extrair_metricas, hsearch]

/-- Witness for `conspir_media_amended`: a report whose prefix is the label
line `"SCORE_DESINFORMACAO: 95\n"` (it contains `'M'`s but not the marker
literal) followed by the template-style row `"MÉDIA CONSPIR | **8/10**"`
resolves `conspir_media` to `"8/10"`, and with `"**8.25/10**"` to
`"8.25/10"`. -/
theorem conspir_media_amended_witness :
    (extrair_metricas ("SCORE_DESINFORMACAO: 95\n".data ++ "MÉDIA CONSPIR".data ++
        [' '] ++ ('|' :: [' ', ' ']) ++ ['*', '*'] ++ ['8'] ++ "/10".data ++
        "**\n".data)).conspir_media = ['8'] ++ "/10".data ∧
    (extrair_metricas ("SCORE_DESINFORMACAO: 95\n".data ++ "MÉDIA CONSPIR".data ++
        [' '] ++ ('|' :: [' ', ' ']) ++ ['*', '*'] ++ (['8'] ++ '.' :: ['2', '5']) ++
        "/10".data ++ "**\n".data)).conspir_media =
      (['8'] ++ '.' :: ['2', '5']) ++ "/10".data :=
  conspir_media_amended "SCORE_DESINFORMACAO: 95\n".data [' '] [' ', ' '] ['*', '*']
    "**\n".data ['8'] ['2', '5'] (by decide) (by decide) (by decide)
    (Or.inr (Or.inr rfl)) (by decide) (by decide) (by decide) (by decide)
